import Mathlib

/-!
Verification of the card model, deck lifecycle, hand evaluation and round
resolution logic of the console blackjack program (`blackjack.py`).

The embedding is shallow:

* Python's `Card = namedtuple('Card', ['suit', 'rank'])` becomes a `Card`
  structure over the enumerated `Suit` and `Rank` types (the `values`
  dictionary in `calculate_hand` is keyed by exactly the thirteen ranks).
* `random.shuffle` (CPython's Fisher–Yates) is modelled with the stream of
  random draws passed in explicitly (`js : List Nat`); each drawn index is
  reduced into range with `%`.
* Python lists are Lean lists; `list.pop()` removes the LAST element.
  Python argument passing is by object reference: `deck.pop()` inside
  `deal_card` mutates the caller's list, while `deck = create_deck()`
  rebinds only the local name and leaves the caller's list untouched.
  `deal_card` therefore returns both the dealt card and the list the
  caller observes after the call.
* The interactive loops of `main` become recursive functions over the
  list of input tokens; the unbounded dealer drawing loop takes fuel and
  returns `Option`, so a `some` result is exactly a completed execution.
-/

/-- The four suits of `create_deck` (`suits` list in the source). -/
inductive Suit
  | Hearts | Diamonds | Clubs | Spades
deriving DecidableEq, Repr, Fintype

/-- The thirteen ranks of `create_deck` (`ranks` list in the source):
`'2', …, '10', 'J', 'Q', 'K', 'A'`. -/
inductive Rank
  | n2 | n3 | n4 | n5 | n6 | n7 | n8 | n9 | n10 | J | Q | K | A
deriving DecidableEq, Repr, Fintype

/-- A playing card: `Card = namedtuple('Card', ['suit', 'rank'])`. -/
structure Card where
  suit : Suit
  rank : Rank
deriving DecidableEq, Repr, Fintype

/-- The `suits` list of `create_deck`. -/
def suits : List Suit := [.Hearts, .Diamonds, .Clubs, .Spades]

/-- The `ranks` list of `create_deck`. -/
def ranks : List Rank := [.n2, .n3, .n4, .n5, .n6, .n7, .n8, .n9, .n10, .J, .Q, .K, .A]

/-- `create_deck`: the list comprehension
`[Card(suit, rank) for suit in suits for rank in ranks]`
(suit-major, rank-minor order). -/
def create_deck : List Card :=
  suits.flatMap fun suit => ranks.map fun rank => ⟨suit, rank⟩

/-- One swap `x[i], x[j] = x[j], x[i]` on a list, as performed by CPython's
`random.shuffle`.  Out-of-range indices leave the list unchanged (they never
occur in the shuffle, which keeps its indices in range). -/
def swapAt (l : List α) (i j : Nat) : List α :=
  match l[i]?, l[j]? with
  | some a, some b => (l.set i b).set j a
  | _, _ => l

/-- The loop of CPython's `random.shuffle`:
`for i in reversed(range(1, len(x))): j = randbelow(i+1); swap x[i], x[j]`.
The random draws are supplied in `js` and reduced into range `0 … i` with
`%`.  If the supply runs out the remaining iterations do nothing. -/
def shuffleGo (l : List α) : Nat → List Nat → List α
  | 0, _ => l
  | _ + 1, [] => l
  | i + 1, j :: js => shuffleGo (swapAt l (i + 1) (j % (i + 2))) i js

/-- `shuffle_deck`: `random.shuffle(deck)`, with the stream of random draws
`js` made explicit.  Returns the shuffled list (the in-place mutation seen by
the caller). -/
def shuffle_deck (js : List Nat) (deck : List α) : List α :=
  shuffleGo deck (deck.length - 1) js

/-- `deal_card(deck)`: if the deck is empty, a fresh deck is created and
shuffled (consuming the random draws `js`) and the card is popped from it;
otherwise the card is popped from `deck` itself.

The first component is the popped card (`none` only for a pop from an empty
list, which cannot happen here).  The second component is the list the
CALLER's binding refers to after the call: `deck.pop()` mutates the caller's
list, but `deck = create_deck()` rebinds the local name only, so in the
empty-deck branch the caller's list is still the original (empty) one. -/
def deal_card (js : List Nat) (deck : List Card) : Option Card × List Card :=
  if deck.isEmpty then
    ((shuffle_deck js create_deck).getLast?, deck)
  else
    (deck.getLast?, deck.dropLast)

/-- The `values` dictionary of `calculate_hand`. -/
def cardValue : Rank → Nat
  | .n2 => 2 | .n3 => 3 | .n4 => 4 | .n5 => 5 | .n6 => 6 | .n7 => 7
  | .n8 => 8 | .n9 => 9 | .n10 => 10 | .J => 10 | .Q => 10 | .K => 10 | .A => 11

/-- The `while total > 21 and num_aces:` loop of `calculate_hand`:
`total -= 10; num_aces -= 1` each iteration. -/
def demoteAces : Nat → Nat → Nat
  | total, 0 => total
  | total, numAces + 1 => if 21 < total then demoteAces (total - 10) numAces else total

/-- `calculate_hand(hand)`: sum the card values
(`total = sum(values[card.rank] for card in hand)`), count the aces
(`num_aces = sum(1 for card in hand if card.rank == 'A')`), then run the
demotion loop. -/
def calculate_hand (hand : List Card) : Nat :=
  demoteAces ((hand.map fun card => cardValue card.rank).sum)
    (hand.countP fun card => card.rank == Rank.A)

/-- Python's `str.upper()` on the ASCII letters, which is all the prompt
comparisons (`action.upper() == 'H'` etc.) rely on. -/
def upperChar (c : Char) : Char :=
  if 'a' ≤ c ∧ c ≤ 'z' then Char.ofNat (c.toNat - 32) else c

/-- `s.upper()` for an input token. -/
def upper (s : String) : String := String.mk (s.data.map upperChar)

/-- Replacing the entry at `m` while keeping the old entry in front is a
permutation of putting the new entry in front. -/
theorem get_cons_set_perm : ∀ (xs : List α) (m : Nat) (h : m < xs.length) (x : α),
    List.Perm (xs.get ⟨m, h⟩ :: xs.set m x) (x :: xs)
  | [], m, h, _ => absurd h (Nat.not_lt_zero m)
  | y :: ys, 0, _, x => List.Perm.swap x y ys
  | y :: ys, m + 1, h, x => by
      have ih := get_cons_set_perm ys m (Nat.lt_of_succ_lt_succ h) x
      exact (List.Perm.swap y (ys.get ⟨m, Nat.lt_of_succ_lt_succ h⟩) (ys.set m x)).trans
        ((List.Perm.cons y ih).trans (List.Perm.swap x y ys))

/-- Exchanging the entries at two positions is a permutation. -/
theorem set_set_swap_perm : ∀ (l : List α) (i j : Nat) (hi : i < l.length) (hj : j < l.length),
    List.Perm ((l.set i (l.get ⟨j, hj⟩)).set j (l.get ⟨i, hi⟩)) l
  | [], i, _, hi, _ => absurd hi (Nat.not_lt_zero i)
  | _ :: _, 0, 0, _, _ => by simp
  | x :: xs, 0, m + 1, _, hj => by
      simpa using get_cons_set_perm xs m (Nat.lt_of_succ_lt_succ hj) x
  | x :: xs, n + 1, 0, hi, _ => by
      simpa using get_cons_set_perm xs n (Nat.lt_of_succ_lt_succ hi) x
  | x :: xs, n + 1, m + 1, hi, hj => by
      simpa using List.Perm.cons x
        (set_set_swap_perm xs n m (Nat.lt_of_succ_lt_succ hi) (Nat.lt_of_succ_lt_succ hj))

/-- A single `random.shuffle` swap permutes the list. -/
theorem swapAt_perm (l : List α) (i j : Nat) : List.Perm (swapAt l i j) l := by
  unfold swapAt
  split
  case h_1 a b h1 h2 =>
    have hi : i < l.length := (List.getElem?_eq_some.mp h1).1
    have hj : j < l.length := (List.getElem?_eq_some.mp h2).1
    have ha : l.get ⟨i, hi⟩ = a := by
      have := (List.getElem?_eq_some.mp h1).2
      simpa using this
    have hb : l.get ⟨j, hj⟩ = b := by
      have := (List.getElem?_eq_some.mp h2).2
      simpa using this
    rw [← ha, ← hb]
    exact set_set_swap_perm l i j hi hj
  case h_2 => exact List.Perm.refl l

/-- The whole swap loop of `random.shuffle` permutes the list. -/
theorem shuffleGo_perm (l : List α) : ∀ (i : Nat) (js : List Nat),
    List.Perm (shuffleGo l i js) l
  | 0, _ => List.Perm.refl l
  | _ + 1, [] => List.Perm.refl l
  | i + 1, j :: js =>
      (shuffleGo_perm (swapAt l (i + 1) (j % (i + 2))) i js).trans
        (swapAt_perm l (i + 1) (j % (i + 2)))

/-- `shuffle_deck` only permutes the deck, whatever random draws occur. -/
theorem shuffle_deck_perm (js : List Nat) (deck : List α) :
    List.Perm (shuffle_deck js deck) deck :=
  shuffleGo_perm deck (deck.length - 1) js

/-- The demotion loop never increases the total. -/
theorem demoteAces_le : ∀ (total numAces : Nat), demoteAces total numAces ≤ total
  | _, 0 => Nat.le_refl _
  | total, numAces + 1 => by
      unfold demoteAces
      split
      · exact Nat.le_trans (demoteAces_le (total - 10) numAces) (Nat.sub_le total 10)
      · exact Nat.le_refl _

/-- The demotion loop subtracts at most 10 per ace. -/
theorem demoteAces_ge : ∀ (total numAces : Nat), total - 10 * numAces ≤ demoteAces total numAces
  | total, 0 => by simp [demoteAces]
  | total, numAces + 1 => by
      unfold demoteAces
      split
      · have := demoteAces_ge (total - 10) numAces
        have harith : total - 10 * (numAces + 1) ≤ total - 10 - 10 * numAces := by omega
        exact Nat.le_trans harith this
      · exact Nat.sub_le _ _

/-- With a total of at most 21 the demotion loop does nothing. -/
theorem demoteAces_of_le (total numAces : Nat) (h : total ≤ 21) :
    demoteAces total numAces = total := by
  cases numAces with
  | zero => rfl
  | succ n => simp [demoteAces, Nat.not_lt_of_le h]

/-- If the loop still ends above 21, every ace was demoted: the result is the
raw total minus 10 per ace (in particular it is not clamped to 21). -/
theorem demoteAces_of_gt : ∀ (total numAces : Nat), 21 < demoteAces total numAces →
    demoteAces total numAces = total - 10 * numAces
  | _, 0 => fun _ => by simp [demoteAces]
  | total, numAces + 1 => by
      unfold demoteAces
      split
      · intro h
        have ih := demoteAces_of_gt (total - 10) numAces h
        omega
      · intro h
        omega

/-- `calculate_hand` seen through the list of ranks alone. -/
def rankCalc (rs : List Rank) : Nat :=
  demoteAces ((rs.map cardValue).sum) (rs.countP fun r => r == Rank.A)

/-- `calculate_hand` factors through the ranks of the hand. -/
theorem calculate_hand_eq_rankCalc (hand : List Card) :
    calculate_hand hand = rankCalc (hand.map Card.rank) := by
  unfold calculate_hand rankCalc
  rw [List.map_map, List.countP_map]
  rfl

/-- A two-card hand never evaluates above 21 (the only raw total above 21 is
ace–ace, which demotes to 12). -/
theorem calculate_hand_two_le (c1 c2 : Card) : calculate_hand [c1, c2] ≤ 21 := by
  rw [calculate_hand_eq_rankCalc]
  revert c1 c2
  have h : ∀ r1 r2 : Rank, rankCalc [r1, r2] ≤ 21 := by decide
  intro c1 c2
  exact h c1.rank c2.rank

/-- The six counters of `game_stats`. -/
structure Stats where
  total_games : Nat
  total_wins : Nat
  total_losses : Nat
  total_ties : Nat
  player_busts : Nat
  dealer_busts : Nat
deriving DecidableEq, Repr

/-- The mutable state a round of `main` works on: the counters, the `cards`
list, and how many times an empty deck has been rebuilt so far (used to index
into the stream of random draws for the rebuild shuffles). -/
structure RState where
  stats : Stats
  deck : List Card
  rebuilds : Nat
deriving DecidableEq, Repr

/-- One `deal_card(cards)` call inside `main`.  `σ` supplies the random draws
for the shuffle of the `k`-th rebuilt deck.  The caller's `cards` binding
afterwards is the second component of `deal_card`; a rebuild consumes one
entry of `σ`.  `none` is a pop from an empty list (never reachable, since a
rebuilt deck has 52 cards). -/
def dealCardM (σ : Nat → List Nat) (s : RState) : Option (Card × RState) :=
  match (deal_card (σ s.rebuilds) s.deck).1 with
  | none => none
  | some c =>
      some (c, { s with
                 deck := (deal_card (σ s.rebuilds) s.deck).2,
                 rebuilds := if s.deck.isEmpty then s.rebuilds + 1 else s.rebuilds })

/-- The player's input loop in `main`: `H` hits (appending a dealt card and
rechecking the total, recording `player_busts`/`total_losses` and setting the
`bust` flag on a total above 21), `S` stands, anything else re-prompts.
Returns the `bust` flag, the final player hand, the state, and the unread
input; `none` when the input runs out (the program would block) or a deal
fails. -/
def playerTurn (σ : Nat → List Nat) :
    List String → List Card → RState → Option (Bool × List Card × RState × List String)
  | [], _, _ => none
  | action :: rest, hand, st =>
    if upper action = "H" then
      match dealCardM σ st with
      | none => none
      | some (c, st1) =>
          let hand1 := hand ++ [c]
          if 21 < calculate_hand hand1 then
            some (true, hand1,
              { st1 with stats := { st1.stats with
                  player_busts := st1.stats.player_busts + 1,
                  total_losses := st1.stats.total_losses + 1 } }, rest)
          else
            playerTurn σ rest hand1 st1
    else if upper action = "S" then
      some (false, hand, st, rest)
    else
      playerTurn σ rest hand st

/-- The dealer's drawing loop in `main`: while the hand evaluates below 17,
deal a card; if the new total is above 21, record `dealer_busts` and
`total_wins` and stop at once.  Runs on fuel; `none` means the fuel ran out
or a deal failed, so a `some` result is a completed loop. -/
def dealerTurn (σ : Nat → List Nat) : Nat → List Card → RState → Option (List Card × RState)
  | 0, _, _ => none
  | fuel + 1, hand, st =>
    if calculate_hand hand < 17 then
      match dealCardM σ st with
      | none => none
      | some (c, st1) =>
          let hand1 := hand ++ [c]
          if 21 < calculate_hand hand1 then
            some (hand1, { st1 with stats := { st1.stats with
                dealer_busts := st1.stats.dealer_busts + 1,
                total_wins := st1.stats.total_wins + 1 } })
          else
            dealerTurn σ fuel hand1 st1
    else
      some (hand, st)

/-- The final comparison block of `main`: a tie increments `total_ties`; a
strictly higher player total of at most 21 increments `total_wins`; a
strictly higher dealer total of at most 21 increments `total_losses`;
otherwise nothing changes. -/
def finalCompare (player_total dealer_total : Nat) (stats : Stats) : Stats :=
  if player_total = dealer_total then
    { stats with total_ties := stats.total_ties + 1 }
  else if dealer_total < player_total ∧ player_total ≤ 21 then
    { stats with total_wins := stats.total_wins + 1 }
  else if player_total < dealer_total ∧ dealer_total ≤ 21 then
    { stats with total_losses := stats.total_losses + 1 }
  else
    stats

/-- One iteration of the `while True:` round loop of `main`:
increment `total_games`, deal two cards each (player, dealer, player,
dealer), run the player's turn, run the dealer's turn unless the player went
bust, then apply the final comparison block to the recomputed totals.
Returns the final player hand, dealer hand, state and unread input. -/
def play_round (σ : Nat → List Nat) (fuel : Nat) (actions : List String) (st : RState) :
    Option (List Card × List Card × RState × List String) :=
  match dealCardM σ { st with stats := { st.stats with
      total_games := st.stats.total_games + 1 } } with
  | none => none
  | some (p1, s1) =>
  match dealCardM σ s1 with
  | none => none
  | some (d1, s2) =>
  match dealCardM σ s2 with
  | none => none
  | some (p2, s3) =>
  match dealCardM σ s3 with
  | none => none
  | some (d2, s4) =>
  match playerTurn σ actions [p1, p2] s4 with
  | none => none
  | some (bust, phand, s5, rest) =>
  match (if bust then some ([d1, d2], s5) else dealerTurn σ fuel [d1, d2] s5) with
  | none => none
  | some (dhand, s6) =>
      some (phand, dhand,
        { s6 with stats := finalCompare (calculate_hand phand) (calculate_hand dhand) s6.stats },
        rest)

/-- The two outcomes of the `play_again()` prompt: `P` starts a new round,
`Q` calls `quit()`. -/
inductive AgainChoice
  | playAgain
  | quitGame
deriving DecidableEq, Repr

/-- `play_again()`: read tokens until one of `P` (break out and keep playing)
or `Q` (quit the process); anything else prints `Invalid input!` and
re-prompts.  `none` when the input runs out. -/
def play_again : List String → Option (AgainChoice × List String)
  | [] => none
  | answer :: rest =>
    if upper answer = "P" then some (.playAgain, rest)
    else if upper answer = "Q" then some (.quitGame, rest)
    else play_again rest

/-- Dealing a card never touches the counters. -/
theorem dealCardM_stats (σ : Nat → List Nat) (s : RState) (c : Card) (s' : RState)
    (h : dealCardM σ s = some (c, s')) : s'.stats = s.stats := by
  unfold dealCardM at h
  split at h
  · exact absurd h (by simp)
  · simp only [Option.some.injEq, Prod.mk.injEq] at h
    rw [← h.2]

/-- Case analysis on a completed player turn: either the player stood
(`bust = false`), with the counters untouched and the final hand either the
initial one or one whose total passed the at-most-21 check on its last hit; or
the player went bust (`bust = true`), with a total above 21 and exactly
`player_busts` and `total_losses` incremented. -/
theorem playerTurn_cases (σ : Nat → List Nat) :
    ∀ (actions : List String) (hand : List Card) (st : RState) (bust : Bool)
      (phand : List Card) (st' : RState) (rest : List String),
      playerTurn σ actions hand st = some (bust, phand, st', rest) →
      (bust = false ∧ st'.stats = st.stats ∧ (phand = hand ∨ calculate_hand phand ≤ 21)) ∨
      (bust = true ∧ 21 < calculate_hand phand ∧
        st'.stats = { st.stats with
                      player_busts := st.stats.player_busts + 1,
                      total_losses := st.stats.total_losses + 1 }) := by
  intro actions
  induction actions with
  | nil => intro hand st bust phand st' rest h; exact absurd h (by simp [playerTurn])
  | cons action rest0 ih =>
    intro hand st bust phand st' rest h
    rw [playerTurn] at h
    by_cases hH : upper action = "H"
    · rw [if_pos hH] at h
      cases hd : dealCardM σ st with
      | none => rw [hd] at h; exact absurd h (by simp)
      | some cs =>
        obtain ⟨c, st1⟩ := cs
        rw [hd] at h
        simp only at h
        by_cases hb : 21 < calculate_hand (hand ++ [c])
        · rw [if_pos hb] at h
          simp only [Option.some.injEq, Prod.mk.injEq] at h
          obtain ⟨h1, h2, h3, h4⟩ := h
          right
          refine ⟨h1.symm, h2 ▸ hb, ?_⟩
          rw [← h3, dealCardM_stats σ st c st1 hd]
        · rw [if_neg hb] at h
          rcases ih (hand ++ [c]) st1 bust phand st' rest h with
            ⟨hb', hst, hph⟩ | ⟨hb', hgt, hst⟩
          · refine Or.inl ⟨hb', ?_, ?_⟩
            · rw [hst, dealCardM_stats σ st c st1 hd]
            · rcases hph with rfl | hle
              · exact Or.inr (Nat.le_of_not_lt hb)
              · exact Or.inr hle
          · refine Or.inr ⟨hb', hgt, ?_⟩
            rw [hst, dealCardM_stats σ st c st1 hd]
    · rw [if_neg hH] at h
      by_cases hS : upper action = "S"
      · rw [if_pos hS] at h
        simp only [Option.some.injEq, Prod.mk.injEq] at h
        obtain ⟨h1, h2, h3, h4⟩ := h
        exact Or.inl ⟨h1.symm, by rw [← h3], Or.inl h2.symm⟩
      · rw [if_neg hS] at h
        exact ih hand st bust phand st' rest h

/-- Case analysis on a completed dealer turn starting from a non-bust hand:
either the total was already at least 17 and nothing happened, or the dealer
drew at least one card, ending either on a total in 17…21 with the counters
untouched, or on a bust (above 21, reached by a single draw from a total
below 17) with exactly `dealer_busts` and `total_wins` incremented. -/
theorem dealerTurn_cases (σ : Nat → List Nat) :
    ∀ (fuel : Nat) (hand : List Card) (st : RState) (dhand : List Card) (st' : RState),
      dealerTurn σ fuel hand st = some (dhand, st') →
      calculate_hand hand ≤ 21 →
      (dhand = hand ∧ st' = st ∧ 17 ≤ calculate_hand hand) ∨
      (hand.length < dhand.length ∧ calculate_hand hand < 17 ∧
        ((st'.stats = st.stats ∧ 17 ≤ calculate_hand dhand ∧ calculate_hand dhand ≤ 21) ∨
         (21 < calculate_hand dhand ∧ calculate_hand dhand.dropLast < 17 ∧
           st'.stats = { st.stats with
                         dealer_busts := st.stats.dealer_busts + 1,
                         total_wins := st.stats.total_wins + 1 }))) := by
  intro fuel
  induction fuel with
  | zero => intro hand st dhand st' h; exact absurd h (by simp [dealerTurn])
  | succ fuel ih =>
    intro hand st dhand st' h hle
    rw [dealerTurn] at h
    by_cases h17 : calculate_hand hand < 17
    · rw [if_pos h17] at h
      cases hd : dealCardM σ st with
      | none => rw [hd] at h; exact absurd h (by simp)
      | some cs =>
        obtain ⟨c, st1⟩ := cs
        rw [hd] at h
        simp only at h
        by_cases hb : 21 < calculate_hand (hand ++ [c])
        · rw [if_pos hb] at h
          simp only [Option.some.injEq, Prod.mk.injEq] at h
          obtain ⟨h1, h2⟩ := h
          refine Or.inr ⟨?_, h17, Or.inr ⟨h1 ▸ hb, ?_, ?_⟩⟩
          · rw [← h1]; simp
          · rw [← h1, List.dropLast_concat]; exact h17
          · rw [← h2, dealCardM_stats σ st c st1 hd]
        · rw [if_neg hb] at h
          rcases ih (hand ++ [c]) st1 dhand st' h (Nat.le_of_not_lt hb) with
            ⟨hd1, hd2, hd3⟩ | ⟨hlen, _, hinner⟩
          · refine Or.inr ⟨?_, h17, Or.inl ⟨?_, hd1 ▸ hd3, hd1 ▸ Nat.le_of_not_lt hb⟩⟩
            · rw [hd1]; simp
            · rw [hd2, dealCardM_stats σ st c st1 hd]
          · refine Or.inr ⟨?_, h17, ?_⟩
            · exact Nat.lt_trans (by simp) hlen
            · rcases hinner with ⟨hs, hge, hle'⟩ | ⟨hgt, hdl, hs⟩
              · exact Or.inl ⟨by rw [hs, dealCardM_stats σ st c st1 hd], hge, hle'⟩
              · exact Or.inr ⟨hgt, hdl, by rw [hs, dealCardM_stats σ st c st1 hd]⟩
    · rw [if_neg h17] at h
      simp only [Option.some.injEq, Prod.mk.injEq] at h
      exact Or.inl ⟨h.1.symm, h.2.symm, Nat.le_of_not_lt h17⟩

/-- With the player bust (above 21) and the dealer at most 21, the final
comparison block changes nothing. -/
theorem finalCompare_player_bust (pt dt : Nat) (s : Stats) (hd : dt ≤ 21) (hp : 21 < pt) :
    finalCompare pt dt s = s := by
  unfold finalCompare
  rw [if_neg (by omega), if_neg (by omega), if_neg (by omega)]

/-- With the dealer bust (above 21) and the player at most 21, the final
comparison block changes nothing. -/
theorem finalCompare_dealer_bust (pt dt : Nat) (s : Stats) (hp : pt ≤ 21) (hd : 21 < dt) :
    finalCompare pt dt s = s := by
  unfold finalCompare
  rw [if_neg (by omega), if_neg (by omega), if_neg (by omega)]

/-- With both totals at most 21 the final comparison block increments exactly
one counter, by trichotomy. -/
theorem finalCompare_both_le (pt dt : Nat) (s : Stats) (hp : pt ≤ 21) (hd : dt ≤ 21) :
    (pt = dt ∧ finalCompare pt dt s = { s with total_ties := s.total_ties + 1 }) ∨
    (dt < pt ∧ finalCompare pt dt s = { s with total_wins := s.total_wins + 1 }) ∨
    (pt < dt ∧ finalCompare pt dt s = { s with total_losses := s.total_losses + 1 }) := by
  rcases Nat.lt_trichotomy pt dt with hlt | heq | hgt
  · refine Or.inr (Or.inr ⟨hlt, ?_⟩)
    unfold finalCompare
    rw [if_neg (by omega), if_neg (by omega), if_pos ⟨hlt, hd⟩]
  · refine Or.inl ⟨heq, ?_⟩
    unfold finalCompare
    rw [if_pos heq]
  · refine Or.inr (Or.inl ⟨hgt, ?_⟩)
    unfold finalCompare
    rw [if_neg (by omega), if_pos ⟨hgt, hp⟩]

/-- Full outcome analysis of a completed round: either the player went bust
(losses and player-bust counters up, dealer keeps the two initial cards), or
the dealer went bust (wins and dealer-bust counters up), or both ended at
most 21 and the comparison block recorded exactly the tie/win/loss matching
the totals.  In every case `total_games` went up by one. -/
theorem play_round_spec (σ : Nat → List Nat) (fuel : Nat) (actions : List String)
    (st : RState) (phand dhand : List Card) (st' : RState) (rest : List String)
    (h : play_round σ fuel actions st = some (phand, dhand, st', rest)) :
    (21 < calculate_hand phand ∧ dhand.length = 2 ∧
      st'.stats = { st.stats with
                    total_games := st.stats.total_games + 1,
                    total_losses := st.stats.total_losses + 1,
                    player_busts := st.stats.player_busts + 1 }) ∨
    (calculate_hand phand ≤ 21 ∧ 21 < calculate_hand dhand ∧
      st'.stats = { st.stats with
                    total_games := st.stats.total_games + 1,
                    total_wins := st.stats.total_wins + 1,
                    dealer_busts := st.stats.dealer_busts + 1 }) ∨
    (calculate_hand phand ≤ 21 ∧ calculate_hand dhand ≤ 21 ∧
      ((calculate_hand phand = calculate_hand dhand ∧
         st'.stats = { st.stats with
                       total_games := st.stats.total_games + 1,
                       total_ties := st.stats.total_ties + 1 }) ∨
       (calculate_hand dhand < calculate_hand phand ∧
         st'.stats = { st.stats with
                       total_games := st.stats.total_games + 1,
                       total_wins := st.stats.total_wins + 1 }) ∨
       (calculate_hand phand < calculate_hand dhand ∧
         st'.stats = { st.stats with
                       total_games := st.stats.total_games + 1,
                       total_losses := st.stats.total_losses + 1 }))) := by
  unfold play_round at h
  cases h1 : dealCardM σ { st with stats := { st.stats with
      total_games := st.stats.total_games + 1 } } with
  | none => rw [h1] at h; exact absurd h (by simp)
  | some cs1 =>
  obtain ⟨p1, s1⟩ := cs1
  rw [h1] at h
  simp only at h
  cases h2 : dealCardM σ s1 with
  | none => rw [h2] at h; exact absurd h (by simp)
  | some cs2 =>
  obtain ⟨d1, s2⟩ := cs2
  rw [h2] at h
  simp only at h
  cases h3 : dealCardM σ s2 with
  | none => rw [h3] at h; exact absurd h (by simp)
  | some cs3 =>
  obtain ⟨p2, s3⟩ := cs3
  rw [h3] at h
  simp only at h
  cases h4 : dealCardM σ s3 with
  | none => rw [h4] at h; exact absurd h (by simp)
  | some cs4 =>
  obtain ⟨d2, s4⟩ := cs4
  rw [h4] at h
  simp only at h
  have hs1 : s1.stats = { st.stats with total_games := st.stats.total_games + 1 } :=
    dealCardM_stats σ _ _ _ h1
  have hs4 : s4.stats = { st.stats with total_games := st.stats.total_games + 1 } := by
    rw [dealCardM_stats σ _ _ _ h4, dealCardM_stats σ _ _ _ h3,
      dealCardM_stats σ _ _ _ h2, hs1]
  cases hpt : playerTurn σ actions [p1, p2] s4 with
  | none => rw [hpt] at h; exact absurd h (by simp)
  | some pres =>
  obtain ⟨bust, phand0, s5, rest0⟩ := pres
  rw [hpt] at h
  simp only at h
  rcases playerTurn_cases σ actions [p1, p2] s4 bust phand0 s5 rest0 hpt with
    ⟨hbf, hs5, hph⟩ | ⟨hbt, hpgt, hs5⟩
  · -- the player stood: the dealer plays
    subst hbf
    rw [if_neg Bool.false_ne_true] at h
    have hple : calculate_hand phand0 ≤ 21 := by
      rcases hph with rfl | hle
      · exact calculate_hand_two_le p1 p2
      · exact hle
    cases hdt : dealerTurn σ fuel [d1, d2] s5 with
    | none => rw [hdt] at h; exact absurd h (by simp)
    | some dres =>
    obtain ⟨dhand0, s6⟩ := dres
    rw [hdt] at h
    simp only [Option.some.injEq, Prod.mk.injEq] at h
    obtain ⟨hEp, hEd, hEs, hEr⟩ := h
    subst hEp; subst hEd; subst hEr
    rcases dealerTurn_cases σ fuel [d1, d2] s5 dhand0 s6 hdt
      (calculate_hand_two_le d1 d2) with
      ⟨hdh, hs6, h17⟩ | ⟨hlen, hlt17, hinner⟩
    · -- dealer already at 17 or more with the initial two cards
      have hdle : calculate_hand dhand0 ≤ 21 := hdh ▸ calculate_hand_two_le d1 d2
      rcases finalCompare_both_le (calculate_hand phand0) (calculate_hand dhand0)
        s6.stats hple hdle with ⟨heq, hfc⟩ | ⟨hlt, hfc⟩ | ⟨hgt, hfc⟩
      · refine Or.inr (Or.inr ⟨hple, hdle, Or.inl ⟨heq, ?_⟩⟩)
        rw [← hEs, hfc, hs6, hs5, hs4]
      · refine Or.inr (Or.inr ⟨hple, hdle, Or.inr (Or.inl ⟨hlt, ?_⟩)⟩)
        rw [← hEs, hfc, hs6, hs5, hs4]
      · refine Or.inr (Or.inr ⟨hple, hdle, Or.inr (Or.inr ⟨hgt, ?_⟩)⟩)
        rw [← hEs, hfc, hs6, hs5, hs4]
    · rcases hinner with ⟨hs6, hge17, hdle⟩ | ⟨hdgt, hdrop, hs6⟩
      · -- dealer drew and stopped between 17 and 21
        rcases finalCompare_both_le (calculate_hand phand0) (calculate_hand dhand0)
          s6.stats hple hdle with ⟨heq, hfc⟩ | ⟨hlt, hfc⟩ | ⟨hgt, hfc⟩
        · refine Or.inr (Or.inr ⟨hple, hdle, Or.inl ⟨heq, ?_⟩⟩)
          rw [← hEs, hfc, hs6, hs5, hs4]
        · refine Or.inr (Or.inr ⟨hple, hdle, Or.inr (Or.inl ⟨hlt, ?_⟩)⟩)
          rw [← hEs, hfc, hs6, hs5, hs4]
        · refine Or.inr (Or.inr ⟨hple, hdle, Or.inr (Or.inr ⟨hgt, ?_⟩)⟩)
          rw [← hEs, hfc, hs6, hs5, hs4]
      · -- dealer went bust
        refine Or.inr (Or.inl ⟨hple, hdgt, ?_⟩)
        rw [← hEs, finalCompare_dealer_bust _ _ _ hple hdgt, hs6, hs5, hs4]
  · -- the player went bust: the dealer keeps the two initial cards
    subst hbt
    simp only [if_pos] at h
    simp only [Option.some.injEq, Prod.mk.injEq] at h
    obtain ⟨hEp, hEd, hEs, hEr⟩ := h
    subst hEp; subst hEr
    refine Or.inl ⟨hpgt, by rw [← hEd]; rfl, ?_⟩
    rw [← hEs, finalCompare_player_bust _ _ _ (calculate_hand_two_le d1 d2) hpgt, hs5, hs4]

/-- An all-zero counter set, as produced by `load_game_stats` when no saved
state exists. -/
def stats0 : Stats := ⟨0, 0, 0, 0, 0, 0⟩

/-- C1: the claim is false on the code.  Calling `deal_card` on an empty deck
returns a card (popped from a freshly created and shuffled deck), but the
caller's deck binding still holds the original empty list — 0 cards, not 51 —
because `deck = create_deck()` rebinds only the local name. -/
theorem deal_card_empty_counterexample :
    (deal_card [] []).1.isSome = true ∧
    (deal_card [] []).2 = [] ∧
    (deal_card [] []).2.length ≠ 51 := by
  refine ⟨rfl, rfl, by decide⟩

/-- C1 (amended): `deal_card` on an empty deck internally creates and
shuffles a replacement 52-card deck and returns a valid card from it, but the
caller is left holding the still-empty original deck, not a 51-card one. -/
theorem deal_card_empty_amended (js : List Nat) :
    (shuffle_deck js create_deck).length = 52 ∧
    (∃ c : Card, (deal_card js []).1 = some c ∧ c ∈ create_deck) ∧
    (deal_card js []).2 = [] := by
  have hperm := shuffle_deck_perm js create_deck
  have hlen : (shuffle_deck js create_deck).length = 52 := by
    rw [hperm.length_eq]; decide
  have hne : shuffle_deck js create_deck ≠ [] := by
    intro he
    rw [he] at hlen
    exact absurd hlen (by decide)
  refine ⟨hlen, ⟨(shuffle_deck js create_deck).getLast hne, ?_, ?_⟩, rfl⟩
  · exact List.getLast?_eq_getLast _ hne
  · exact hperm.mem_iff.mp (List.getLast_mem hne)

/-- C3: `calculate_hand` is the raw sum of the card values followed by the
ace-demotion loop: it returns the raw sum whenever that is at most 21, never
subtracts more than 10 per ace, never adds, on a result above 21 has demoted
every ace (the bust total is returned as-is, not clamped), and evaluates the
spec's three test hands to 12, 21 and 24. -/
theorem calculate_hand_C3 :
    (∀ hand : List Card,
      ((hand.map fun card => cardValue card.rank).sum ≤ 21 →
         calculate_hand hand = (hand.map fun card => cardValue card.rank).sum) ∧
      (hand.map fun card => cardValue card.rank).sum
          - 10 * (hand.countP fun card => card.rank == Rank.A) ≤ calculate_hand hand ∧
      calculate_hand hand ≤ (hand.map fun card => cardValue card.rank).sum ∧
      (21 < calculate_hand hand →
         calculate_hand hand = (hand.map fun card => cardValue card.rank).sum
            - 10 * (hand.countP fun card => card.rank == Rank.A))) ∧
    calculate_hand [⟨.Spades, .A⟩, ⟨.Hearts, .A⟩] = 12 ∧
    calculate_hand [⟨.Spades, .K⟩, ⟨.Hearts, .A⟩] = 21 ∧
    calculate_hand [⟨.Spades, .n10⟩, ⟨.Hearts, .n9⟩, ⟨.Clubs, .n5⟩] = 24 := by
  refine ⟨fun hand => ⟨?_, ?_, ?_, ?_⟩, by decide, by decide, by decide⟩
  · exact fun h => demoteAces_of_le _ _ h
  · exact demoteAces_ge _ _
  · exact demoteAces_le _ _
  · exact fun h => demoteAces_of_gt _ _ h

/-- C3 witness: a five has raw sum 5 ≤ 21, and `calculate_hand` returns it. -/
theorem calculate_hand_C3_witness :
    (([⟨Suit.Spades, Rank.n5⟩] : List Card).map fun card => cardValue card.rank).sum ≤ 21 ∧
    calculate_hand [⟨Suit.Spades, Rank.n5⟩]
      = (([⟨Suit.Spades, Rank.n5⟩] : List Card).map fun card => cardValue card.rank).sum :=
  ⟨by decide, (calculate_hand_C3.1 [⟨Suit.Spades, Rank.n5⟩]).1 (by decide)⟩

/-- C6: `create_deck` yields exactly 52 pairwise-distinct (suit, rank) cards,
and `shuffle_deck` only permutes whatever deck it is given (the multiset of
cards is unchanged), for every stream of random draws. -/
theorem create_deck_C6 :
    create_deck.length = 52 ∧ create_deck.Nodup ∧
    ∀ (js : List Nat) (deck : List Card), List.Perm (shuffle_deck js deck) deck :=
  ⟨by decide, by decide, shuffle_deck_perm⟩

/-- C8: the empty hand evaluates to 0 — no failure, and no bust (0 ≤ 21). -/
theorem calculate_hand_empty :
    calculate_hand [] = 0 ∧ calculate_hand [] ≤ 21 :=
  ⟨rfl, by decide⟩

/-- C9: the value of a hand depends only on the multiset of its ranks: any
two hands whose rank lists are permutations of each other — in particular any
reordering of one hand, with any suits — evaluate equally. -/
theorem calculate_hand_rank_perm (h1 h2 : List Card)
    (hp : List.Perm (h1.map Card.rank) (h2.map Card.rank)) :
    calculate_hand h1 = calculate_hand h2 := by
  rw [calculate_hand_eq_rankCalc, calculate_hand_eq_rankCalc]
  unfold rankCalc
  rw [(hp.map cardValue).sum_eq, hp.countP_eq]

/-- C9 witness: king–ace equals ace–king with different suits. -/
theorem calculate_hand_rank_perm_witness :
    List.Perm (([⟨.Hearts, .K⟩, ⟨.Spades, .A⟩] : List Card).map Card.rank)
      (([⟨.Clubs, .A⟩, ⟨.Diamonds, .K⟩] : List Card).map Card.rank) ∧
    calculate_hand [⟨.Hearts, .K⟩, ⟨.Spades, .A⟩]
      = calculate_hand [⟨.Clubs, .A⟩, ⟨.Diamonds, .K⟩] :=
  ⟨by decide, calculate_hand_rank_perm _ _ (by decide)⟩

/-- C10: popping from a non-empty deck returns its last entry (the top), and
the caller's deck afterwards is exactly the first `n - 1` entries of the
original deck, in order. -/
theorem deal_card_nonempty (js : List Nat) (deck : List Card) (h : deck ≠ []) :
    (deal_card js deck).1 = some (deck.getLast h) ∧
    (deal_card js deck).2 = deck.dropLast ∧
    (deal_card js deck).2.length = deck.length - 1 ∧
    (deal_card js deck).2 = deck.take (deck.length - 1) := by
  have hne : deck.isEmpty = false := by
    cases deck with
    | nil => exact absurd rfl h
    | cons a l => rfl
  have h1 : deal_card js deck = (deck.getLast?, deck.dropLast) := by
    unfold deal_card
    rw [hne, if_neg Bool.false_ne_true]
  rw [h1]
  exact ⟨List.getLast?_eq_getLast deck h, rfl, List.length_dropLast deck,
    List.dropLast_eq_take deck⟩

/-- C10 witness: dealing from a concrete two-card deck returns the second
card and leaves the one-card front segment. -/
theorem deal_card_nonempty_witness :
    (deal_card [] [⟨.Hearts, .n2⟩, ⟨.Spades, .A⟩]).2
      = ([⟨.Hearts, .n2⟩, ⟨.Spades, .A⟩] : List Card).take
          (([⟨.Hearts, .n2⟩, ⟨.Spades, .A⟩] : List Card).length - 1) :=
  (deal_card_nonempty [] [⟨.Hearts, .n2⟩, ⟨.Spades, .A⟩] (by decide)).2.2.2

/-- C2: every completed round increments `total_games` by exactly one, and
exactly one of `total_wins`, `total_losses`, `total_ties` by exactly one,
leaving the other two unchanged — including the rounds where a player bust or
a dealer bust recorded the outcome before the final comparison block. -/
theorem play_round_counters (σ : Nat → List Nat) (fuel : Nat) (actions : List String)
    (st : RState) (phand dhand : List Card) (st' : RState) (rest : List String)
    (h : play_round σ fuel actions st = some (phand, dhand, st', rest)) :
    st'.stats.total_games = st.stats.total_games + 1 ∧
    ((st'.stats.total_wins = st.stats.total_wins + 1 ∧
      st'.stats.total_losses = st.stats.total_losses ∧
      st'.stats.total_ties = st.stats.total_ties) ∨
     (st'.stats.total_wins = st.stats.total_wins ∧
      st'.stats.total_losses = st.stats.total_losses + 1 ∧
      st'.stats.total_ties = st.stats.total_ties) ∨
     (st'.stats.total_wins = st.stats.total_wins ∧
      st'.stats.total_losses = st.stats.total_losses ∧
      st'.stats.total_ties = st.stats.total_ties + 1)) := by
  rcases play_round_spec σ fuel actions st phand dhand st' rest h with
    ⟨_, _, hs⟩ | ⟨_, _, hs⟩ | ⟨_, _, ⟨_, hs⟩ | ⟨_, hs⟩ | ⟨_, hs⟩⟩
  · exact ⟨by rw [hs], Or.inr (Or.inl ⟨by rw [hs], by rw [hs], by rw [hs]⟩)⟩
  · exact ⟨by rw [hs], Or.inl ⟨by rw [hs], by rw [hs], by rw [hs]⟩⟩
  · exact ⟨by rw [hs], Or.inr (Or.inr ⟨by rw [hs], by rw [hs], by rw [hs]⟩)⟩
  · exact ⟨by rw [hs], Or.inl ⟨by rw [hs], by rw [hs], by rw [hs]⟩⟩
  · exact ⟨by rw [hs], Or.inr (Or.inl ⟨by rw [hs], by rw [hs], by rw [hs]⟩)⟩

/-- C2 witness: a concrete stood round (player 20 vs dealer 19) bumps
`total_games` from 0 to 1. -/
theorem play_round_counters_witness :
    (⟨⟨1, 1, 0, 0, 0, 0⟩, [], 0⟩ : RState).stats.total_games
      = (⟨stats0, [⟨.Hearts, .n9⟩, ⟨.Hearts, .n10⟩, ⟨.Hearts, .K⟩, ⟨.Spades, .K⟩], 0⟩
          : RState).stats.total_games + 1 :=
  (play_round_counters (fun _ => []) 17 ["S"]
    ⟨stats0, [⟨.Hearts, .n9⟩, ⟨.Hearts, .n10⟩, ⟨.Hearts, .K⟩, ⟨.Spades, .K⟩], 0⟩
    [⟨.Spades, .K⟩, ⟨.Hearts, .n10⟩] [⟨.Hearts, .K⟩, ⟨.Hearts, .n9⟩]
    ⟨⟨1, 1, 0, 0, 0, 0⟩, [], 0⟩ [] (by decide)).1

/-- C4: in a completed dealer turn from a non-bust hand, the dealer stands
pat exactly when the total is already 17 or more (whatever the player holds),
draws whenever it is below 17, and on a total above 21 has stopped right
after the busting draw (the previous hand was still below 17) recording
exactly one `dealer_busts` and one `total_wins` increment; a final total of
at most 21 is at least 17 and leaves the counters untouched. -/
theorem dealerTurn_policy (σ : Nat → List Nat) (fuel : Nat) (hand : List Card)
    (st : RState) (dhand : List Card) (st' : RState)
    (hle : calculate_hand hand ≤ 21)
    (h : dealerTurn σ (fuel + 1) hand st = some (dhand, st')) :
    (17 ≤ calculate_hand hand → dhand = hand ∧ st' = st) ∧
    (calculate_hand hand < 17 → hand.length < dhand.length) ∧
    (21 < calculate_hand dhand →
      st'.stats = { st.stats with
                    dealer_busts := st.stats.dealer_busts + 1,
                    total_wins := st.stats.total_wins + 1 } ∧
      calculate_hand dhand.dropLast < 17) ∧
    (calculate_hand dhand ≤ 21 → st'.stats = st.stats ∧ 17 ≤ calculate_hand dhand) := by
  rcases dealerTurn_cases σ (fuel + 1) hand st dhand st' h hle with
    ⟨hdh, hst, h17⟩ | ⟨hlen, h17, hinner⟩
  · subst hdh; subst hst
    exact ⟨fun _ => ⟨rfl, rfl⟩,
      fun hlt => absurd h17 (by omega),
      fun hgt => absurd hle (by omega),
      fun _ => ⟨rfl, h17⟩⟩
  · rcases hinner with ⟨hs, hge, hle'⟩ | ⟨hgt, hdrop, hs⟩
    · exact ⟨fun hge17 => absurd hge17 (by omega),
        fun _ => hlen,
        fun hgt' => absurd hgt' (by omega),
        fun _ => ⟨hs, hge⟩⟩
    · exact ⟨fun hge17 => absurd hge17 (by omega),
        fun _ => hlen,
        fun _ => ⟨hs, hdrop⟩,
        fun hle'' => absurd hgt (by omega)⟩

/-- C4 witness: from king–six (16) the dealer draws a nine, busts at 25, and
the bust records one `dealer_busts` and one `total_wins` increment. -/
theorem dealerTurn_policy_witness :
    (⟨⟨0, 1, 0, 0, 0, 1⟩, [], 0⟩ : RState).stats
      = { (⟨stats0, [⟨.Spades, .n9⟩], 0⟩ : RState).stats with
          dealer_busts := (⟨stats0, [⟨.Spades, .n9⟩], 0⟩ : RState).stats.dealer_busts + 1,
          total_wins := (⟨stats0, [⟨.Spades, .n9⟩], 0⟩ : RState).stats.total_wins + 1 } ∧
    calculate_hand ([⟨.Hearts, .K⟩, ⟨.Hearts, .n6⟩, ⟨.Spades, .n9⟩] : List Card).dropLast < 17 :=
  (dealerTurn_policy (fun _ => []) 0 [⟨.Hearts, .K⟩, ⟨.Hearts, .n6⟩]
    ⟨stats0, [⟨.Spades, .n9⟩], 0⟩
    [⟨.Hearts, .K⟩, ⟨.Hearts, .n6⟩, ⟨.Spades, .n9⟩]
    ⟨⟨0, 1, 0, 0, 0, 1⟩, [], 0⟩ (by decide) (by decide)).2.2.1 (by decide)

/-- C5: a round in which the player finished above 21 records exactly one
`player_busts` and one `total_losses` increment, leaves `total_wins` and
`total_ties` untouched, and skips the dealer turn entirely — the dealer still
holds exactly the two initially dealt cards. -/
theorem play_round_player_bust (σ : Nat → List Nat) (fuel : Nat) (actions : List String)
    (st : RState) (phand dhand : List Card) (st' : RState) (rest : List String)
    (h : play_round σ fuel actions st = some (phand, dhand, st', rest))
    (hbust : 21 < calculate_hand phand) :
    st'.stats.player_busts = st.stats.player_busts + 1 ∧
    st'.stats.total_losses = st.stats.total_losses + 1 ∧
    st'.stats.total_wins = st.stats.total_wins ∧
    st'.stats.total_ties = st.stats.total_ties ∧
    dhand.length = 2 := by
  rcases play_round_spec σ fuel actions st phand dhand st' rest h with
    ⟨_, hdl, hs⟩ | ⟨hple, _, _⟩ | ⟨hple, _, _⟩
  · exact ⟨by rw [hs], by rw [hs], by rw [hs], by rw [hs], hdl⟩
  · exact absurd hbust (by omega)
  · exact absurd hbust (by omega)

/-- C5 witness: hitting king–queen with a five busts at 25 and bumps
`player_busts` from 0 to 1. -/
theorem play_round_player_bust_witness :
    (⟨⟨1, 0, 1, 0, 1, 0⟩, [], 0⟩ : RState).stats.player_busts
      = (⟨stats0, [⟨.Hearts, .n5⟩, ⟨.Hearts, .n9⟩, ⟨.Hearts, .Q⟩, ⟨.Hearts, .n2⟩,
          ⟨.Spades, .K⟩], 0⟩ : RState).stats.player_busts + 1 :=
  (play_round_player_bust (fun _ => []) 17 ["H"]
    ⟨stats0, [⟨.Hearts, .n5⟩, ⟨.Hearts, .n9⟩, ⟨.Hearts, .Q⟩, ⟨.Hearts, .n2⟩,
      ⟨.Spades, .K⟩], 0⟩
    [⟨.Spades, .K⟩, ⟨.Hearts, .Q⟩, ⟨.Hearts, .n5⟩] [⟨.Hearts, .n2⟩, ⟨.Hearts, .n9⟩]
    ⟨⟨1, 0, 1, 0, 1, 0⟩, [], 0⟩ [] (by decide) (by decide)).1

/-- A hit/stand input list with no accepted token never completes the
player's turn: each invalid token is consumed with no other effect. -/
theorem playerTurn_all_invalid (σ : Nat → List Nat) :
    ∀ (ts : List String) (hand : List Card) (st : RState),
      (∀ u ∈ ts, upper u ≠ "H" ∧ upper u ≠ "S") →
      playerTurn σ ts hand st = none
  | [], _, _, _ => rfl
  | u :: us, hand, st, hts => by
      rw [playerTurn, if_neg (hts u (by simp)).1, if_neg (hts u (by simp)).2]
      exact playerTurn_all_invalid σ us hand st fun v hv => hts v (by simp [hv])

/-- A play-again input list with no accepted token never completes the
prompt. -/
theorem play_again_all_invalid :
    ∀ ts : List String, (∀ u ∈ ts, upper u ≠ "P" ∧ upper u ≠ "Q") →
      play_again ts = none
  | [], _ => rfl
  | u :: us, hts => by
      rw [play_again, if_neg (hts u (by simp)).1, if_neg (hts u (by simp)).2]
      exact play_again_all_invalid us fun v hv => hts v (by simp [hv])

/-- C7: each prompt site rejects by its own accepted set.  At the hit/stand
prompt any token whose uppercase form is neither `H` nor `S` (so also `P` or
`Q`) is consumed with no state transition — the loop continues with the same
hand, deck and counters, no card dealt; at the play-again prompt any token
other than `P`/`Q` (so also `H` or `S`) just re-prompts.  Input made solely
of tokens rejected at a prompt loops there forever (the prompt never
completes, and no error value is produced). -/
theorem invalid_input_rejected (σ : Nat → List Nat) (t1 t2 : String)
    (rest1 rest2 ts1 ts2 : List String) (hand : List Card) (st : RState)
    (hH : upper t1 ≠ "H") (hS : upper t1 ≠ "S")
    (hP : upper t2 ≠ "P") (hQ : upper t2 ≠ "Q")
    (hts1 : ∀ u ∈ ts1, upper u ≠ "H" ∧ upper u ≠ "S")
    (hts2 : ∀ u ∈ ts2, upper u ≠ "P" ∧ upper u ≠ "Q") :
    playerTurn σ (t1 :: rest1) hand st = playerTurn σ rest1 hand st ∧
    play_again (t2 :: rest2) = play_again rest2 ∧
    playerTurn σ ts1 hand st = none ∧
    play_again ts2 = none := by
  refine ⟨?_, ?_, ?_, ?_⟩
  · rw [playerTurn, if_neg hH, if_neg hS]
  · rw [play_again, if_neg hP, if_neg hQ]
  · exact playerTurn_all_invalid σ ts1 hand st hts1
  · exact play_again_all_invalid ts2 hts2

/-- C7 witness: `p` is rejected at the hit/stand prompt and `h` at the
play-again prompt, each with no effect, and the streams `P, x` (at hit/stand)
and `H, ?` (at play-again) re-prompt forever. -/
theorem invalid_input_rejected_witness :
    playerTurn (fun _ => []) ["p"] [] ⟨stats0, [], 0⟩
        = playerTurn (fun _ => []) [] [] ⟨stats0, [], 0⟩ ∧
    play_again ["h"] = play_again [] ∧
    playerTurn (fun _ => []) ["P", "x"] [] ⟨stats0, [], 0⟩ = none ∧
    play_again ["H", "?"] = none :=
  invalid_input_rejected (fun _ => []) "p" "h" [] [] ["P", "x"] ["H", "?"] [] ⟨stats0, [], 0⟩
    (by decide) (by decide) (by decide) (by decide) (by decide) (by decide)
